import Mathlib

/-!
Verification development for the batch assembly/decomposition core of
`ocf_datapipes` (files `ocf_datapipes/batch/merge_numpy_examples_to_batch.py`,
`ocf_datapipes/utils/utils.py` and
`ocf_datapipes/transform/numpy/extend_timestamps_to_future.py`).

The Python code is shallowly embedded: numpy arrays become a nested inductive
of integer leaves, Python dicts become ordered association lists, and fallible
code returns `Except PyError`.  Machine floating point is not modelled; all
timestamp arithmetic here is exact integer arithmetic (the modelled values are
small integer second counts, on which the `float64` re-encoding performed by
the code is value preserving).
-/

set_option autoImplicit false

namespace Ocf

/-- The Python exception classes that the embedded code can actually raise.
Each constructor stands for one builtin exception class. -/
inductive PyError where
  | indexError
  | keyError
  | valueError
  | stopIteration
  | nameError
  | attributeError
  | typeError
deriving DecidableEq, Repr

/-- The builtin class name of each modelled Python exception. -/
def PyError.pyName : PyError → String
  | .indexError => "IndexError"
  | .keyError => "KeyError"
  | .valueError => "ValueError"
  | .stopIteration => "StopIteration"
  | .nameError => "NameError"
  | .attributeError => "AttributeError"
  | .typeError => "TypeError"

/-- A numpy `ndarray` with integer entries: either a rank-0 scalar or a list of
sub-arrays along the leading axis. -/
inductive NDArray where
  | scalar (x : Int)
  | arr (xs : List NDArray)
deriving Repr

/-- Decidable equality for `NDArray` (nested inductive, so written by hand). -/
def NDArray.beq : NDArray → NDArray → Bool
  | .scalar a, .scalar b => a == b
  | .arr xs, .arr ys => beqList xs ys
  | _, _ => false
where beqList : List NDArray → List NDArray → Bool
  | [], [] => true
  | x :: xs, y :: ys => NDArray.beq x y && beqList xs ys
  | _, _ => false

mutual

theorem NDArray.beq_iff : ∀ a b : NDArray, NDArray.beq a b = true ↔ a = b
  | .scalar _, .scalar _ => by simp [NDArray.beq]
  | .scalar _, .arr _ => by simp [NDArray.beq]
  | .arr _, .scalar _ => by simp [NDArray.beq]
  | .arr xs, .arr ys => by
    simpa [NDArray.beq] using NDArray.beqList_iff xs ys
termination_by a _ => sizeOf a

theorem NDArray.beqList_iff : ∀ xs ys : List NDArray, NDArray.beq.beqList xs ys = true ↔ xs = ys
  | [], [] => by simp [NDArray.beq.beqList]
  | [], _ :: _ => by simp [NDArray.beq.beqList]
  | _ :: _, [] => by simp [NDArray.beq.beqList]
  | x :: xs, y :: ys => by
    simp [NDArray.beq.beqList, NDArray.beq_iff x y, NDArray.beqList_iff xs ys]
termination_by xs _ => sizeOf xs

end

instance : DecidableEq NDArray := fun a b =>
  decidable_of_iff (NDArray.beq a b = true) (NDArray.beq_iff a b)

/-- `ndarray.shape`: the leading-axis length at each level (numpy arrays are
rectangular, so the shape below the leading axis is read off the first
sub-array). -/
def NDArray.shape : NDArray → List Nat
  | .scalar _ => []
  | .arr [] => [0]
  | .arr (x :: xs) => (x :: xs).length :: x.shape

/-- `np.stack(seq)`: a new leading axis over the sequence.  Numpy requires a
nonempty sequence of arrays that all share one shape; otherwise it raises
`ValueError`. -/
def np_stack (l : List NDArray) : Except PyError NDArray :=
  match l with
  | [] => .error .valueError
  | x :: xs =>
    if xs.all (fun y => decide (y.shape = x.shape)) then .ok (.arr (x :: xs))
    else .error .valueError

/-- `a[i]` for a nonnegative integer index: selects along the leading axis,
raising `IndexError` out of range and on rank-0 arrays. -/
def NDArray.getItem : NDArray → Nat → Except PyError NDArray
  | .scalar _, _ => .error .indexError
  | .arr xs, i =>
    match xs.get? i with
    | some v => .ok v
    | none => .error .indexError

/-- `a.shape[0]`: raises `IndexError` on a rank-0 array (its shape tuple is
empty). -/
def NDArray.shape0 : NDArray → Except PyError Nat
  | .scalar _ => .error .indexError
  | .arr xs => .ok xs.length

/-- Modelled from the spec: the key enums `BatchKey` and `NWPBatchKey` of
`ocf_datapipes.utils.consts` are not in the source tree.  Per the spec, a field
key is a member of one of two closed enum classes, carries a symbolic `name`,
and follows Python enum equality: two members are equal iff they belong to the
same class and have the same member name (members of different enum classes are
never equal). -/
inductive Key where
  /-- a member of the primary enum class `BatchKey` -/
  | primary (name : String)
  /-- a member of the nested enum class `NWPBatchKey` -/
  | nwpKey (name : String)
deriving DecidableEq, Repr

/-- `key.name`: the symbolic member name of an enum member. -/
def Key.name : Key → String
  | .primary n => n
  | .nwpKey n => n

/-- `BatchKey.nwp`, the secondary-modality key (referenced throughout the
merge module). -/
def BatchKey.nwp : Key := .primary "nwp"

/-- `BatchKey.nwp_channel_names` (referenced in `utils.py` line 129). -/
def BatchKey.nwp_channel_names : Key := .primary "nwp_channel_names"

/-- `NWPBatchKey.nwp_channel_names` (referenced in
`merge_numpy_examples_to_batch.py` line 14). -/
def NWPBatchKey.nwp_channel_names : Key := .nwpKey "nwp_channel_names"

/-- A nested per-source example/batch: an ordered mapping from `NWPBatchKey`
to arrays (the values of one source of the secondary nwp modality). -/
abbrev NWPNumpyBatch := List (Key × NDArray)

/-- The value held under one primary key: either an array, or (under
`BatchKey.nwp` only, per the data model) the nested mapping from source
identifier to per-source batch. -/
inductive BVal where
  | data (a : NDArray)
  | nwpDict (sources : List (String × NWPNumpyBatch))
deriving DecidableEq, Repr

/-- A `NumpyBatch` (example or batch): an ordered mapping from `BatchKey` to
values, modelling an insertion-ordered Python dict. -/
abbrev NumpyBatch := List (Key × BVal)

/-- Python dict subscription `d[k]`: the value at the key, or `KeyError`. -/
def dlookup {α β : Type} [DecidableEq α] (d : List (α × β)) (k : α) : Except PyError β :=
  match d.find? (fun p => decide (p.1 = k)) with
  | some p => .ok p.2
  | none => .error .keyError

/-- Build an ordered dict by computing a value for each key in order,
propagating the first raised exception (models a Python `for` loop that fills
a fresh dict). -/
def mapEntries {α β : Type} (f : α → Except PyError β) : List α → Except PyError (List (α × β))
  | [] => .ok []
  | k :: ks =>
    match f k with
    | .error e => .error e
    | .ok v =>
      match mapEntries f ks with
      | .error e => .error e
      | .ok rest => .ok ((k, v) :: rest)

/-- Python `str.endswith`, modelled on the underlying character list (the
builtin compares the trailing characters of `s` against `suffix`). -/
def strEndsWith (s suffix : String) : Bool :=
  suffix.data.isSuffixOf s.data

/-- `_key_is_constant` (merge module, lines 13-15): a key is constant iff its
member name ends with `"t0_idx"` or it equals `NWPBatchKey.nwp_channel_names`. -/
def _key_is_constant (batch_key : Key) : Bool :=
  strEndsWith batch_key.name "t0_idx" || decide (batch_key = NWPBatchKey.nwp_channel_names)

/-- `stack_data_list` (lines 18-36) as applied to nested (array-valued)
entries: a constant key passes the first entry through (`data_list[0]`,
`IndexError` on an empty list); a variable key is `np.stack`ed, and the
exception from `np.stack` is re-raised unchanged (the offending key and the
shapes are only written to the log). -/
def stack_data_list (data_list : List NDArray) (batch_key : Key) : Except PyError NDArray :=
  if _key_is_constant batch_key then
    match data_list with
    | [] => .error .indexError
    | x :: _ => .ok x
  else
    np_stack data_list

/-- `np.stack` over raw primary-level values.  Stacking a non-array (the
nested nwp dict) would build a numpy object array, which the array model does
not represent; that case is modelled as an error and is outside every
theorem's hypotheses (the data model nests dicts only under `BatchKey.nwp`,
which both stack engines treat before reaching `np.stack`). -/
def np_stackP (l : List BVal) : Except PyError BVal :=
  match seqData l with
  | .error e => .error e
  | .ok arrs => (np_stack arrs).map .data
where seqData : List BVal → Except PyError (List NDArray)
  | [] => .ok []
  | .data a :: rest => (seqData rest).map (a :: ·)
  | .nwpDict _ :: _ => .error .typeError

/-- `stack_data_list` as applied at the primary level, where entries are raw
values (`BVal`): same function, same branches. -/
def stack_data_listP (data_list : List BVal) (batch_key : Key) : Except PyError BVal :=
  if _key_is_constant batch_key then
    match data_list with
    | [] => .error .indexError
    | x :: _ => .ok x
  else
    np_stackP data_list

/-- `extract_data_from_batch` (lines 39-52) on nested (array) entries: a
constant key returns the batch's value verbatim; a variable key indexes the
leading axis. -/
def extract_data_from_batch (data : NDArray) (batch_key : Key) (index_num : Nat) :
    Except PyError NDArray :=
  if _key_is_constant batch_key then .ok data
  else data.getItem index_num

/-- `d[BatchKey.nwp][src][k]`: the comprehension body of the nested stacking
loop (line 84) and the subscript chains of lines 139 and 143.  Subscripting an
ndarray with a string source identifier raises. -/
def getNwpVal (d : NumpyBatch) (src : String) (k : Key) : Except PyError NDArray :=
  match dlookup d BatchKey.nwp with
  | .error e => .error e
  | .ok (.data _) => .error .indexError
  | .ok (.nwpDict srcs) =>
    match dlookup srcs src with
    | .error e => .error e
    | .ok nb => dlookup nb k

/-- `[d[BatchKey.nwp][nwp_source][nwp_batch_key] for d in dict_list]`
(line 84): left-to-right evaluation, first exception propagates. -/
def gatherNwp (src : String) (k : Key) : List NumpyBatch → Except PyError (List NDArray)
  | [] => .ok []
  | d :: ds =>
    match getNwpVal d src k with
    | .error e => .error e
    | .ok a => (gatherNwp src k ds).map (a :: ·)

/-- `[d[batch_key] for d in dict_list]` (line 94). -/
def gatherKey (k : Key) : List NumpyBatch → Except PyError (List BVal)
  | [] => .ok []
  | d :: ds =>
    match dlookup d k with
    | .error e => .error e
    | .ok v => (gatherKey k ds).map (v :: ·)

/-- Lines 73-90 of `stack_np_examples_into_batch`: the nested branch for
`BatchKey.nwp`.  Source identifiers and nested keys are both enumerated from
the first example (nested keys from its first source; `IndexError` when the
first example has no source). -/
def stack_nwp_val (dict_list : List NumpyBatch) (first : NumpyBatch) : Except PyError BVal :=
  match dlookup first BatchKey.nwp with
  | .error e => .error e
  | .ok (.data _) => .error .attributeError
  | .ok (.nwpDict srcs) =>
    match srcs.map Prod.fst with
    | [] => .error .indexError
    | s0 :: rest =>
      match dlookup srcs s0 with
      | .error e => .error e
      | .ok nb0 =>
        let nwp_batch_keys := nb0.map Prod.fst
        (mapEntries
          (fun nwp_source =>
            mapEntries
              (fun nwp_batch_key =>
                match gatherNwp nwp_source nwp_batch_key dict_list with
                | .error e => .error e
                | .ok l => stack_data_list l nwp_batch_key)
              nwp_batch_keys)
          (s0 :: rest)).map .nwpDict

/-- `stack_np_examples_into_batch` (merge module, lines 55-98): enumerate the
key set from the first example (`dict_list[0]`, so an empty input raises
`IndexError`), treating `BatchKey.nwp` via the nested branch and every other
key via `stack_data_list`. -/
def stack_np_examples_into_batch (dict_list : List NumpyBatch) : Except PyError NumpyBatch :=
  match dict_list with
  | [] => .error .indexError
  | first :: rest =>
    mapEntries
      (fun batch_key =>
        if batch_key = BatchKey.nwp then
          stack_nwp_val (first :: rest) first
        else
          match gatherKey batch_key (first :: rest) with
          | .error e => .error e
          | .ok l => stack_data_listP l batch_key)
      (first.map Prod.fst)

/-- Lines 130-150 of `unstack_np_batch_into_examples`: the nested branch of
the sample loop.  For each source and nested key the code first evaluates
`batch[BatchKey.nwp][nwp_source][nwp_batch_key][i]` (line 139) — indexing even
constant values, with the result immediately overwritten — and then stores
`extract_data_from_batch(batch[BatchKey.nwp][nwp_source][nwp_batch_key], ...)`
(lines 142-146). -/
def nwp_sample_val (batch : NumpyBatch) (i : Nat) : Except PyError BVal :=
  match dlookup batch BatchKey.nwp with
  | .error e => .error e
  | .ok (.data _) => .error .attributeError
  | .ok (.nwpDict srcs) =>
    match srcs.map Prod.fst with
    | [] => .error .indexError
    | s0 :: rest =>
      match dlookup srcs s0 with
      | .error e => .error e
      | .ok nb0 =>
        let nwp_batch_keys := nb0.map Prod.fst
        (mapEntries
          (fun nwp_source =>
            mapEntries
              (fun nwp_batch_key =>
                match getNwpVal batch nwp_source nwp_batch_key with
                | .error e => .error e
                | .ok a =>
                  match a.getItem i with
                  | .error e => .error e
                  | .ok _ =>
                    match getNwpVal batch nwp_source nwp_batch_key with
                    | .error e => .error e
                    | .ok a2 => extract_data_from_batch a2 nwp_batch_key i)
              nwp_batch_keys)
          (s0 :: rest)).map .nwpDict

/-- One iteration of the sample loop (lines 125-159).  The `else` branch
(lines 152-157) references the name `batch_key`, which is bound nowhere in
`unstack_np_batch_into_examples` (the loop variable is `key`), so reaching it
raises `NameError`. -/
def build_sample (batch : NumpyBatch) (batch_keys : List Key) (i : Nat) :
    Except PyError NumpyBatch :=
  mapEntries
    (fun key =>
      if key = BatchKey.nwp then nwp_sample_val batch i
      else .error .nameError)
    batch_keys

/-- `for i in range(batch_size)` (line 124): build the samples in index
order, propagating the first raised exception. -/
def samples_loop (batch : NumpyBatch) (batch_keys : List Key) :
    Nat → Nat → Except PyError (List NumpyBatch)
  | _, 0 => .ok []
  | i, n + 1 =>
    match build_sample batch batch_keys i with
    | .error e => .error e
    | .ok s => (samples_loop batch batch_keys (i + 1) n).map (s :: ·)

/-- `unstack_np_batch_into_examples` (lines 101-160): infer the batch size
from the first non-constant key (descending into the first source and first
non-constant nested key when that key is `BatchKey.nwp`; `next` on an
exhausted filter raises `StopIteration`), then build one example per index. -/
def unstack_np_batch_into_examples (batch : NumpyBatch) : Except PyError (List NumpyBatch) :=
  let batch_keys := batch.map Prod.fst
  match batch_keys.find? (fun x => !_key_is_constant x) with
  | none => .error .stopIteration
  | some non_constant_key =>
    let batch_size : Except PyError Nat :=
      if non_constant_key = BatchKey.nwp then
        match dlookup batch BatchKey.nwp with
        | .error e => .error e
        | .ok (.data _) => .error .attributeError
        | .ok (.nwpDict srcs) =>
          match srcs.map Prod.fst with
          | [] => .error .stopIteration
          | s0 :: _ =>
            match dlookup srcs s0 with
            | .error e => .error e
            | .ok nb =>
              match (nb.map Prod.fst).find? (fun x => !_key_is_constant x) with
              | none => .error .stopIteration
              | some nck =>
                match dlookup nb nck with
                | .error e => .error e
                | .ok a => a.shape0
      else
        match dlookup batch non_constant_key with
        | .error e => .error e
        | .ok (.data a) => a.shape0
        | .ok (.nwpDict _) => .error .attributeError
    match batch_size with
    | .error e => .error e
    | .ok b => samples_loop batch batch_keys 0 b

/-- `MergeNumpyExamplesToBatchIterDataPipe` (lines 187-209): the configured
state stored by `__init__`. -/
structure MergeNumpyExamplesToBatchIterDataPipe where
  n_examples_per_batch : Int

/-- `__init__` (lines 190-199): the arguments are stored with no validation,
so construction never fails. -/
def mergeExamplesInit (n_examples_per_batch : Int) :
    Except PyError MergeNumpyExamplesToBatchIterDataPipe :=
  .ok ⟨n_examples_per_batch⟩

/-- `__iter__` of the accumulating batcher (lines 201-209): append each
upstream example to the buffer; when the buffer length equals
`n_examples_per_batch`, stack it, emit the batch and reset the buffer.  On
upstream exhaustion any leftover buffer is discarded. -/
def mergeExamplesIter (n : Int) : List NumpyBatch → List NumpyBatch →
    Except PyError (List NumpyBatch)
  | _, [] => .ok []
  | np_examples, x :: rest =>
    let buf := np_examples ++ [x]
    if (buf.length : Int) = n then
      match stack_np_examples_into_batch buf with
      | .error e => .error e
      | .ok b => (mergeExamplesIter n [] rest).map (b :: ·)
    else
      mergeExamplesIter n buf rest

/-- `stack_np_examples_into_batch` of `utils/utils.py` (lines 116-142): the
duplicate stacking implementation.  It classifies a key as constant when its
name ends with `"t0_idx"` or the key equals `BatchKey.nwp_channel_names`, and
it has no nested branch; a constant key's value is read from the first
example only. -/
def utils_stack_np_examples_into_batch (np_examples : List NumpyBatch) :
    Except PyError NumpyBatch :=
  match np_examples with
  | [] => .error .indexError
  | first :: rest =>
    mapEntries
      (fun batch_key =>
        if strEndsWith batch_key.name "t0_idx" ||
            decide (batch_key = BatchKey.nwp_channel_names) then
          dlookup first batch_key
        else
          match gatherKey batch_key (first :: rest) with
          | .error e => .error e
          | .ok l => np_stackP l)
      (first.map Prod.fst)

/-- `ExtendTimestepsToFutureIterDataPipe.__init__`
(`transform/numpy/extend_timestamps_to_future.py`, lines 12-17): durations are
modelled as second counts; `int(forecast_duration / sample_period_duration)`
truncates toward zero, which on positive durations is the floor, i.e. natural
division. -/
structure ExtendTimestepsToFutureIterDataPipe where
  forecast_duration : Nat
  sample_period_duration : Nat

/-- `self.num_future_timesteps` computed in `__init__` (line 17). -/
def ExtendTimestepsToFutureIterDataPipe.num_future_timesteps
    (p : ExtendTimestepsToFutureIterDataPipe) : Nat :=
  p.forecast_duration / p.sample_period_duration

/-- The append loop of lines 30-31: `times.append(times[-1] + timestep_diff)`
repeated `num_future_timesteps` times, each step adding the inferred
difference to the running last value. -/
def append_future_times (lastv timestep_diff : Int) : Nat → List Int
  | 0 => []
  | k + 1 => (lastv + timestep_diff) :: append_future_times (lastv + timestep_diff) timestep_diff k

/-- `times[-2]` and `times[-1]` of a list (second-to-last and last element). -/
def lastTwo {α : Type} : List α → Option (α × α)
  | [] => none
  | [_] => none
  | [a, b] => some (a, b)
  | _ :: x :: y :: rest => lastTwo (x :: y :: rest)

/-- Lines 26-34 applied to one `time_utc` value: `times = list(value)`;
`timestep_diff = abs(times[-1] - times[-2])` (`IndexError` when there are
fewer than two entries, and iterating a rank-0 array raises); append
`num_future_timesteps` future steps; re-encode with
`np.asarray(times, dtype=np.float64)`.  The model keeps exact integer
timestamps: entries of a rank-1 time array are scalars, and the `float64`
re-encoding is value preserving on them.  Rows of a higher-rank time array
(and `list()` of the nested nwp dict) are outside the model and mapped to an
error; no theorem below reaches those cases. -/
def extend_times_value (num_future_timesteps : Nat) (v : BVal) : Except PyError BVal :=
  match v with
  | .nwpDict _ => .error .typeError
  | .data (.scalar _) => .error .typeError
  | .data (.arr xs) =>
    match lastTwo xs with
    | none => .error .indexError
    | some (t2, t1) =>
      match t1, t2 with
      | .scalar b, .scalar a =>
        let timestep_diff : Int := (b - a).natAbs
        .ok (.data (.arr (xs ++ (append_future_times b timestep_diff num_future_timesteps).map .scalar)))
      | _, _ => .error .typeError

/-- One pass of `__iter__` (lines 20-36) over a batch: every key whose member
name ends with `"time_utc"` has its value extended; every other entry is left
unchanged (the `dict.update` of line 35 replaces values in place, preserving
key order). -/
def extend_timesteps_batch (num_future_timesteps : Nat) :
    NumpyBatch → Except PyError NumpyBatch
  | [] => .ok []
  | (k, v) :: rest =>
    if strEndsWith k.name "time_utc" then
      match extend_times_value num_future_timesteps v with
      | .error e => .error e
      | .ok v2 => (extend_timesteps_batch num_future_timesteps rest).map ((k, v2) :: ·)
    else
      (extend_timesteps_batch num_future_timesteps rest).map ((k, v) :: ·)

/-- Whether a key is a member of the primary enum class `BatchKey`. -/
def Key.isPrimary : Key → Bool
  | .primary _ => true
  | .nwpKey _ => false

/-- Decode a rank-1 array's entries as integer scalars (`none` when some
entry is itself an array, i.e. the array has rank above one). -/
def decodeScalars : List NDArray → Option (List Int)
  | [] => some []
  | .scalar x :: rest => (decodeScalars rest).map (x :: ·)
  | .arr _ :: _ => none

/-- A value that is a rank-1 integer time series with at least two entries
(the inputs the forward time extension claim speaks about). -/
def isScalarTimeSeries (v : BVal) : Bool :=
  match v with
  | .data (.arr xs) => (decodeScalars xs).isSome && decide (2 ≤ xs.length)
  | _ => false

/-- Following the spec's words (§4.5): the `step_count` appended timestamps in
closed form, the `j`-th new entry being the last existing timestamp plus
`j + 1` times the inferred step. -/
def specFutureTimes (lastv step : Int) (step_count : Nat) : List Int :=
  (List.range step_count).map (fun (j : Nat) => lastv + ((j : Int) + 1) * step)

/-- Following the spec's words (§4.5): the extended timestamp series — the
original entries followed by `step_count` new ones, whose step is the absolute
difference of the last two existing timestamps. -/
def specExtendTimes (step_count : Nat) (ts : List Int) : List Int :=
  match lastTwo ts with
  | none => ts
  | some (a, b) => ts ++ specFutureTimes b ((b - a).natAbs : Int) step_count

/-- The spec-side expected value of one `time_utc` field after extension
(identity on values outside the rank-1 integer series shape). -/
def specExtendVal (step_count : Nat) (v : BVal) : BVal :=
  match v with
  | .data (.arr xs) =>
    match decodeScalars xs with
    | some ts => .data (.arr ((specExtendTimes step_count ts).map .scalar))
    | none => v
  | _ => v

/-! ### Helper lemmas -/

theorem dlookup_cons_self {α β : Type} [DecidableEq α] (k : α) (v : β) (t : List (α × β)) :
    dlookup ((k, v) :: t) k = .ok v := by
  simp [dlookup, List.find?]

theorem dlookup_cons_ne {α β : Type} [DecidableEq α] {k k' : α} (h : k' ≠ k) (v : β)
    (t : List (α × β)) : dlookup ((k', v) :: t) k = dlookup t k := by
  simp [dlookup, List.find?, h]

theorem dlookup_isOk_of_mem {α β : Type} [DecidableEq α] {k : α} :
    ∀ {d : List (α × β)}, k ∈ d.map Prod.fst → ∃ v, dlookup d k = .ok v := by
  intro d
  induction d with
  | nil => intro h; simp at h
  | cons p t ih =>
    intro h
    by_cases hk : p.1 = k
    · exact ⟨p.2, by cases p; cases hk; exact dlookup_cons_self ..⟩
    · have : k ∈ t.map Prod.fst := by
        rcases List.mem_map.mp h with ⟨q, hq, hfst⟩
        rcases List.mem_cons.mp hq with rfl | hqt
        · exact absurd hfst hk
        · exact List.mem_map.mpr ⟨q, hqt, hfst⟩
      rcases ih this with ⟨v, hv⟩
      exact ⟨v, by cases p; rw [dlookup_cons_ne hk]; exact hv⟩

theorem mapEntries_congr {α β : Type} {f g : α → Except PyError β} :
    ∀ {l : List α}, (∀ a ∈ l, f a = g a) → mapEntries f l = mapEntries g l := by
  intro l
  induction l with
  | nil => intro _; rfl
  | cons a t ih =>
    intro h
    have ha := h a (List.mem_cons_self a t)
    have ht := ih (fun b hb => h b (List.mem_cons_of_mem a hb))
    simp [mapEntries, ha, ht]

/-! ### Claim theorems -/

/-- C1: the claimed round-trip law `unstack (stack examples) = examples` is
broken by the code itself: the non-nwp branch of the sample loop in
`unstack_np_batch_into_examples` (lines 152-157) references the name
`batch_key`, which is bound nowhere in that function (the loop variable is
`key`), so splitting any batch that has a non-nwp key raises `NameError`.
Here a single well-formed example with one variable key stacks fine, and
splitting the resulting batch raises `NameError` instead of returning the
example. -/
theorem round_trip_raises_nameError :
    stack_np_examples_into_batch [[(Key.primary "pv", .data (.arr [.scalar 0]))]] =
      .ok [(Key.primary "pv", .data (.arr [.arr [.scalar 0]]))] ∧
    unstack_np_batch_into_examples [(Key.primary "pv", .data (.arr [.arr [.scalar 0]]))] =
      .error .nameError :=
  ⟨rfl, rfl⟩

/-- C2: a constant key's value is taken verbatim from the first example —
`stack_data_list` returns `data_list[0]` whatever the remaining entries are —
and `extract_data_from_batch` reproduces that batch value verbatim for every
recovered example index. -/
theorem constant_key_pass_through (k : Key) (hk : _key_is_constant k = true) :
    (∀ (x : BVal) (l : List BVal), stack_data_listP (x :: l) k = .ok x) ∧
    (∀ (a : NDArray) (l : List NDArray), stack_data_list (a :: l) k = .ok a) ∧
    (∀ (a : NDArray) (i : Nat), extract_data_from_batch a k i = .ok a) := by
  refine ⟨fun x l => ?_, fun a l => ?_, fun a i => ?_⟩ <;>
    simp [stack_data_listP, stack_data_list, extract_data_from_batch, hk]

/-- Witness for C2 at the constant key `BatchKey.pv_t0_idx`, with a second
example whose value differs from the first: stacking keeps the first value
and extraction reproduces it at every index. -/
theorem constant_key_pass_through_witness :
    _key_is_constant (Key.primary "pv_t0_idx") = true ∧
    stack_data_listP [.data (.scalar 1), .data (.scalar 2)] (Key.primary "pv_t0_idx") =
      .ok (.data (.scalar 1)) ∧
    extract_data_from_batch (.scalar 1) (Key.primary "pv_t0_idx") 1 = .ok (.scalar 1) ∧
    (BVal.data (.scalar 1) : BVal) ≠ .data (.scalar 2) :=
  ⟨rfl,
   (constant_key_pass_through (Key.primary "pv_t0_idx") rfl).1 (.data (.scalar 1))
     [.data (.scalar 2)],
   (constant_key_pass_through (Key.primary "pv_t0_idx") rfl).2.2 (.scalar 1) 1,
   by decide⟩

/-- C3: a batch with one variable primary field of shape `(4, 10)` and one
constant field is claimed to split into 4 examples; the code instead infers
`batch_size = 4` and then raises `NameError` in the sample loop (the undefined
name `batch_key`, lines 152-157), and an all-constant batch raises the builtin
`StopIteration` from `next` on an exhausted filter, not a dedicated
`NoVariableFieldError`. -/
theorem unstack_batch_size_inference_raises_nameError :
    unstack_np_batch_into_examples
      [(Key.primary "pv",
        .data (.arr (List.replicate 4 (.arr (List.replicate 10 (.scalar 0)))))),
       (Key.primary "pv_t0_idx", .data (.scalar 7))] = .error .nameError ∧
    unstack_np_batch_into_examples [(Key.primary "pv_t0_idx", .data (.scalar 7))] =
      .error .stopIteration ∧
    PyError.pyName .stopIteration ≠ "NoVariableFieldError" :=
  ⟨rfl, rfl, by decide⟩

/-- C7 counterexample: stacking an empty sequence does not fail with a
dedicated `EmptyInputError` — no such class exists; the one exception raised
is the builtin `IndexError` from `dict_list[0]`, whose class name is not
`EmptyInputError`. -/
theorem stack_empty_no_emptyInputError :
    stack_np_examples_into_batch [] = .error .indexError ∧
    PyError.pyName .indexError ≠ "EmptyInputError" :=
  ⟨rfl, by decide⟩

/-- C7 amended: stacking an empty sequence fails with the builtin
`IndexError` raised by `dict_list[0]` (line 69). -/
theorem stack_empty_raises_indexError :
    stack_np_examples_into_batch [] = .error .indexError :=
  rfl

/-- C6 counterexample: stacking arrays of shapes `(3,4)` and `(3,5)` under a
variable key raises, but not a `StackShapeError` naming the key — the raised
exception is the builtin `ValueError` re-raised from `np.stack`, and it is
the very same exception value for two different keys, so it cannot carry the
offending key (the key and shapes are only written to the debug log). -/
theorem stack_mismatch_error_carries_no_key :
    stack_data_list
        [.arr (List.replicate 3 (.arr (List.replicate 4 (.scalar 0)))),
         .arr (List.replicate 3 (.arr (List.replicate 5 (.scalar 0))))]
        (Key.nwpKey "nwp") = .error .valueError ∧
    stack_data_list
        [.arr (List.replicate 3 (.arr (List.replicate 4 (.scalar 0)))),
         .arr (List.replicate 3 (.arr (List.replicate 5 (.scalar 0))))]
        (Key.primary "pv") = .error .valueError ∧
    (Key.nwpKey "nwp") ≠ (Key.primary "pv") ∧
    PyError.pyName .valueError ≠ "StackShapeError" :=
  ⟨rfl, rfl, by decide, by decide⟩

/-- C6 amended: stacking a variable key whose per-example values have
differing shapes always raises the `ValueError` from `np.stack` (re-raised
unchanged after logging) — the data is never silently coerced. -/
theorem stack_mismatched_shapes_raises (k : Key) (hk : _key_is_constant k = false)
    (x y : NDArray) (rest : List NDArray) (hy : y ∈ rest) (hshape : y.shape ≠ x.shape) :
    stack_data_list (x :: rest) k = .error .valueError := by
  have hall : rest.all (fun z => decide (z.shape = x.shape)) = false := by
    cases hall : rest.all (fun z => decide (z.shape = x.shape)) with
    | false => rfl
    | true => exact absurd (by simpa using List.all_eq_true.mp hall y hy) hshape
  simp [stack_data_list, hk, np_stack, hall]

/-- Witness for C6 amended at the claim's own example: shapes `(3,4)` and
`(3,5)` under the variable key `BatchKey.pv`. -/
theorem stack_mismatched_shapes_raises_witness :
    _key_is_constant (Key.primary "pv") = false ∧
    (NDArray.arr (List.replicate 3 (.arr (List.replicate 5 (.scalar 0))))).shape ≠
      (NDArray.arr (List.replicate 3 (.arr (List.replicate 4 (.scalar 0))))).shape ∧
    stack_data_list
        [.arr (List.replicate 3 (.arr (List.replicate 4 (.scalar 0)))),
         .arr (List.replicate 3 (.arr (List.replicate 5 (.scalar 0))))]
        (Key.primary "pv") = .error .valueError :=
  ⟨rfl, by decide,
   stack_mismatched_shapes_raises (Key.primary "pv") rfl
     (.arr (List.replicate 3 (.arr (List.replicate 4 (.scalar 0)))))
     (.arr (List.replicate 3 (.arr (List.replicate 5 (.scalar 0)))))
     [.arr (List.replicate 3 (.arr (List.replicate 5 (.scalar 0))))]
     (List.mem_singleton.mpr rfl) (by decide)⟩

/-- C9 counterexample: constructing the accumulating batcher with the
non-positive batch size `-3` does not fail — `__init__` stores the value with
no validation. -/
theorem merge_init_accepts_nonpositive :
    mergeExamplesInit (-3) = .ok ⟨-3⟩ :=
  rfl

/-- C9 amended: construction never validates `n_examples_per_batch`, and with
a non-positive value the batcher simply never emits a batch (the buffer
length, which is always at least 1 when compared, never equals `n`). -/
theorem merge_init_no_validation_nonpositive_never_emits (n : Int) (hn : n ≤ 0) :
    mergeExamplesInit n = .ok ⟨n⟩ ∧
    ∀ (buf s : List NumpyBatch), mergeExamplesIter n buf s = .ok [] := by
  refine ⟨rfl, fun buf s => ?_⟩
  induction s generalizing buf with
  | nil => rfl
  | cons x rest ih =>
    have hcond : ¬ (((buf ++ [x]).length : Int) = n) := by
      simp only [List.length_append, List.length_singleton]
      omega
    simp only [mergeExamplesIter, if_neg hcond]
    exact ih (buf ++ [x])

/-- Witness for C9 amended: with `n_examples_per_batch = 0`, feeding two
examples emits nothing. -/
theorem merge_init_no_validation_witness :
    (0 : Int) ≤ 0 ∧
    mergeExamplesIter 0 []
        (List.replicate 2 [(Key.primary "pv", BVal.data (.scalar 1))]) = .ok [] :=
  ⟨by decide,
   (merge_init_no_validation_nonpositive_never_emits 0 (by decide)).2 []
     (List.replicate 2 [(Key.primary "pv", BVal.data (.scalar 1))])⟩

/-- C10 counterexample: on a single example whose only key is
`BatchKey.nwp_channel_names` (a key set not containing `BatchKey.nwp`), the
utils duplicate treats the key as constant (passes the value through) while
the batch module's `_key_is_constant` compares against
`NWPBatchKey.nwp_channel_names` — a member of a different enum class, never
equal — and therefore stacks it, adding a leading axis: the two batches
differ. -/
theorem utils_stack_diverges_on_nwp_channel_names :
    utils_stack_np_examples_into_batch
        [[(BatchKey.nwp_channel_names, .data (.arr [.scalar 7]))]] =
      .ok [(BatchKey.nwp_channel_names, .data (.arr [.scalar 7]))] ∧
    stack_np_examples_into_batch
        [[(BatchKey.nwp_channel_names, .data (.arr [.scalar 7]))]] =
      .ok [(BatchKey.nwp_channel_names, .data (.arr [.arr [.scalar 7]]))] ∧
    ([(BatchKey.nwp_channel_names, BVal.data (.arr [.scalar 7]))] : NumpyBatch) ≠
      [(BatchKey.nwp_channel_names, BVal.data (.arr [.arr [.scalar 7]]))] :=
  ⟨rfl, rfl, by decide⟩

theorem mergeExamplesIter_cons (n : Int) (buf : List NumpyBatch) (x : NumpyBatch)
    (rest : List NumpyBatch) :
    mergeExamplesIter n buf (x :: rest) =
      if (((buf ++ [x]).length : Nat) : Int) = n then
        match stack_np_examples_into_batch (buf ++ [x]) with
        | .error e => .error e
        | .ok b => (mergeExamplesIter n [] rest).map (b :: ·)
      else
        mergeExamplesIter n (buf ++ [x]) rest :=
  rfl

theorem mergeIter_flush (n : Int) :
    ∀ (s₁ : List NumpyBatch) (a : NumpyBatch) (buf rest : List NumpyBatch),
      (buf.length + s₁.length + 1 : Int) = n →
      mergeExamplesIter n buf (a :: (s₁ ++ rest)) =
        match stack_np_examples_into_batch (buf ++ a :: s₁) with
        | .error e => .error e
        | .ok b => (mergeExamplesIter n [] rest).map (b :: ·) := by
  intro s₁
  induction s₁ with
  | nil =>
    intro a buf rest h
    have hcond : (((buf ++ [a]).length : Nat) : Int) = n := by
      simp only [List.length_append, List.length_cons, List.length_nil,
        List.length_singleton] at h ⊢
      omega
    rw [show a :: ([] ++ rest) = a :: rest from rfl, mergeExamplesIter_cons, if_pos hcond]
  | cons a' s₁ ih =>
    intro a buf rest h
    have hcond : ¬ ((((buf ++ [a]).length : Nat) : Int) = n) := by
      simp only [List.length_append, List.length_cons, List.length_nil,
        List.length_singleton] at h ⊢
      omega
    have h' : ((buf ++ [a]).length + s₁.length + 1 : Int) = n := by
      simp only [List.length_append, List.length_cons, List.length_nil,
        List.length_singleton] at h ⊢
      omega
    have hrec := ih a' (buf ++ [a]) rest h'
    rw [show a :: (a' :: s₁ ++ rest) = a :: (a' :: (s₁ ++ rest)) from rfl,
      mergeExamplesIter_cons, if_neg hcond, hrec, List.append_assoc]
    rfl

theorem mergeIter_discard (n : Int) :
    ∀ (s buf : List NumpyBatch), (buf.length + s.length : Int) < n →
      mergeExamplesIter n buf s = .ok [] := by
  intro s
  induction s with
  | nil => intro buf _; rfl
  | cons x rest ih =>
    intro buf h
    have hcond : ¬ ((((buf ++ [x]).length : Nat) : Int) = n) := by
      simp only [List.length_append, List.length_cons, List.length_nil,
        List.length_singleton] at h ⊢
      omega
    rw [mergeExamplesIter_cons, if_neg hcond]
    exact ih (buf ++ [x]) (by
      simp only [List.length_append, List.length_cons, List.length_nil,
        List.length_singleton] at h ⊢
      omega)

/-- C4: the accumulating batcher with positive `n_examples_per_batch = n`
emits one stacked batch for each complete group of `n` consecutive upstream
examples, resetting its buffer to empty after each emission, and on upstream
exhaustion any under-full buffer is discarded, never emitted. -/
theorem merge_numpy_examples_to_batch_iter (n : Int) (hn : 0 < n) :
    (∀ (grp rest : List NumpyBatch), (grp.length : Int) = n →
        mergeExamplesIter n [] (grp ++ rest) =
          match stack_np_examples_into_batch grp with
          | .error e => .error e
          | .ok b => (mergeExamplesIter n [] rest).map (b :: ·)) ∧
    (∀ s : List NumpyBatch, (s.length : Int) < n → mergeExamplesIter n [] s = .ok []) := by
  constructor
  · intro grp rest hlen
    cases grp with
    | nil => simp at hlen; omega
    | cons a s₁ =>
      have h : (([] : List NumpyBatch).length + s₁.length + 1 : Int) = n := by
        simp only [List.length_cons] at hlen
        simp only [List.length_nil]
        omega
      simpa using mergeIter_flush n s₁ a [] rest h
  · intro s hs
    exact mergeIter_discard n s [] (by simpa using hs)

/-- Witness for C4 at the claim's own numbers: `n = 4` and a stream of 10
identical examples — the first group of 4 is stacked and emitted with the
buffer reset (the group law instantiated), and the run over all 10 examples
yields exactly 2 batches of 4, the trailing 2 examples never emitted. -/
theorem merge_numpy_examples_to_batch_iter_witness :
    (mergeExamplesIter 4 []
        (List.replicate 4 [(Key.primary "pv", BVal.data (.arr [.scalar 0]))] ++
          List.replicate 6 [(Key.primary "pv", BVal.data (.arr [.scalar 0]))]) =
      match stack_np_examples_into_batch
          (List.replicate 4 [(Key.primary "pv", BVal.data (.arr [.scalar 0]))]) with
      | .error e => .error e
      | .ok b =>
        (mergeExamplesIter 4 []
            (List.replicate 6 [(Key.primary "pv", BVal.data (.arr [.scalar 0]))])).map
          (b :: ·)) ∧
    mergeExamplesIter 4 []
        (List.replicate 10 [(Key.primary "pv", BVal.data (.arr [.scalar 0]))]) =
      .ok
        [[(Key.primary "pv",
           BVal.data (.arr (List.replicate 4 (.arr [.scalar 0]))))],
         [(Key.primary "pv",
           BVal.data (.arr (List.replicate 4 (.arr [.scalar 0]))))]] :=
  ⟨(merge_numpy_examples_to_batch_iter 4 (by decide)).1
      (List.replicate 4 [(Key.primary "pv", BVal.data (.arr [.scalar 0]))])
      (List.replicate 6 [(Key.primary "pv", BVal.data (.arr [.scalar 0]))])
      (by decide),
   rfl⟩

theorem lastTwo_map {α β : Type} (f : α → β) :
    ∀ ts : List α, lastTwo (ts.map f) = (lastTwo ts).map (fun p => (f p.1, f p.2))
  | [] => rfl
  | [_] => rfl
  | [_, _] => rfl
  | a :: x :: y :: rest => by
    have h := lastTwo_map f (x :: y :: rest)
    simp only [List.map_cons] at h ⊢
    rw [show lastTwo (f a :: f x :: f y :: rest.map f) = lastTwo (f x :: f y :: rest.map f)
        from rfl,
      show lastTwo (a :: x :: y :: rest) = lastTwo (x :: y :: rest) from rfl]
    exact h

theorem lastTwo_some : ∀ (ts : List Int), 2 ≤ ts.length → ∃ a b, lastTwo ts = some (a, b)
  | [], h => by simp at h
  | [x], h => by simp at h
  | [a, b], _ => ⟨a, b, rfl⟩
  | _ :: x :: y :: rest, _ => by
    have h := lastTwo_some (x :: y :: rest) (by simp)
    simpa [lastTwo] using h

theorem append_future_times_eq_spec (d : Int) :
    ∀ (k : Nat) (L : Int), append_future_times L d k = specFutureTimes L d k := by
  intro k
  induction k with
  | zero => intro L; rfl
  | succ k ih =>
    intro L
    rw [append_future_times, ih (L + d)]
    simp only [specFutureTimes, List.range_succ_eq_map, List.map_cons, List.map_map,
      List.cons.injEq]
    constructor
    · push_cast
      ring
    · apply List.map_congr_left
      intro j _
      simp only [Function.comp_apply]
      push_cast
      ring

theorem decodeScalars_map : ∀ ts : List Int, decodeScalars (ts.map .scalar) = some ts := by
  intro ts
  induction ts with
  | nil => rfl
  | cons x rest ih => simp [decodeScalars, ih]

theorem decodeScalars_some : ∀ {xs : List NDArray} {ts : List Int},
    decodeScalars xs = some ts → xs = ts.map .scalar := by
  intro xs
  induction xs with
  | nil =>
    intro ts h
    simp only [decodeScalars, Option.some.injEq] at h
    rw [← h]
    rfl
  | cons x rest ih =>
    intro ts h
    cases x with
    | scalar v =>
      simp only [decodeScalars, Option.map_eq_some'] at h
      rcases h with ⟨ts', hts', rfl⟩
      simp [ih hts']
    | arr _ => simp [decodeScalars] at h

theorem isScalarTimeSeries_elim {v : BVal} (h : isScalarTimeSeries v = true) :
    ∃ ts : List Int, v = .data (.arr (ts.map .scalar)) ∧ 2 ≤ ts.length := by
  cases v with
  | nwpDict _ => simp [isScalarTimeSeries] at h
  | data a =>
    cases a with
    | scalar _ => simp [isScalarTimeSeries] at h
    | arr xs =>
      simp only [isScalarTimeSeries, Bool.and_eq_true, Option.isSome_iff_exists,
        decide_eq_true_eq] at h
      rcases h with ⟨⟨ts, hts⟩, hlen⟩
      have hx := decodeScalars_some hts
      refine ⟨ts, by rw [hx], ?_⟩
      rw [hx, List.length_map] at hlen
      exact hlen

theorem specExtendVal_eq {n : Nat} {ts : List Int} :
    specExtendVal n (.data (.arr (ts.map .scalar))) =
      .data (.arr ((specExtendTimes n ts).map .scalar)) := by
  simp [specExtendVal, decodeScalars_map ts]

theorem extend_times_value_spec (n : Nat) (ts : List Int) (h2 : 2 ≤ ts.length) :
    extend_times_value n (.data (.arr (ts.map .scalar))) =
      .ok (.data (.arr ((specExtendTimes n ts).map .scalar))) := by
  obtain ⟨a, b, hab⟩ := lastTwo_some ts h2
  have hm : lastTwo (ts.map NDArray.scalar) = some (.scalar a, .scalar b) := by
    rw [lastTwo_map, hab]
    rfl
  simp only [extend_times_value, hm]
  rw [show specExtendTimes n ts = ts ++ specFutureTimes b (((b - a).natAbs : Nat) : Int) n by
    simp [specExtendTimes, hab]]
  rw [List.map_append, append_future_times_eq_spec]

/-- C5: for every batch whose `time_utc`-suffixed primary fields are rank-1
integer time series of length at least two, one pass of the time-extension
pipe replaces exactly those fields by the original entries followed by
`step_count = floor(horizon / step)` new timestamps, the `j`-th new entry
being the last existing timestamp plus `j + 1` times the inferred step (the
absolute difference of the last two existing timestamps, so repeated addition
equals this closed form), and leaves every other field unchanged. -/
theorem extend_timesteps_to_future_spec (p : ExtendTimestepsToFutureIterDataPipe)
    (batch : NumpyBatch)
    (H : batch.all
        (fun kv => !(strEndsWith kv.1.name "time_utc") || isScalarTimeSeries kv.2) = true) :
    extend_timesteps_batch p.num_future_timesteps batch =
      .ok (batch.map (fun kv =>
        if strEndsWith kv.1.name "time_utc" then
          (kv.1, specExtendVal p.num_future_timesteps kv.2)
        else kv)) := by
  induction batch with
  | nil => rfl
  | cons kv rest ih =>
    obtain ⟨k, v⟩ := kv
    rw [List.all_cons, Bool.and_eq_true] at H
    obtain ⟨H1, H2⟩ := H
    by_cases hk : strEndsWith k.name "time_utc" = true
    · rw [hk, Bool.not_true, Bool.false_or] at H1
      obtain ⟨ts, rfl, hlen⟩ := isScalarTimeSeries_elim H1
      simp only [extend_timesteps_batch, hk, if_true,
        extend_times_value_spec p.num_future_timesteps ts hlen, ih H2, Except.map,
        List.map_cons, specExtendVal_eq]
    · have hk' : strEndsWith k.name "time_utc" = false := by
        cases hcase : strEndsWith k.name "time_utc" with
        | true => exact absurd hcase hk
        | false => rfl
      simp only [extend_timesteps_batch, hk', Bool.false_eq_true, if_false, ih H2, Except.map,
        List.map_cons]

/-- Witness for C5 at the claim's own example: a `time_utc` field
`[0, 300, 600]` seconds with `step = 300 s` and `horizon = 900 s` becomes
`[0, 300, 600, 900, 1200, 1500]`, and the non-matching `pv` field is
untouched. -/
theorem extend_timesteps_to_future_spec_witness :
    extend_timesteps_batch
        (ExtendTimestepsToFutureIterDataPipe.num_future_timesteps ⟨900, 300⟩)
        [(Key.primary "hrvsatellite_time_utc",
          .data (.arr [.scalar 0, .scalar 300, .scalar 600])),
         (Key.primary "pv", .data (.arr [.scalar 5]))] =
      .ok
        [(Key.primary "hrvsatellite_time_utc",
          .data (.arr [.scalar 0, .scalar 300, .scalar 600, .scalar 900, .scalar 1200,
            .scalar 1500])),
         (Key.primary "pv", .data (.arr [.scalar 5]))] ∧
    extend_timesteps_batch
        (ExtendTimestepsToFutureIterDataPipe.num_future_timesteps ⟨900, 300⟩)
        [(Key.primary "hrvsatellite_time_utc",
          .data (.arr [.scalar 0, .scalar 300, .scalar 600])),
         (Key.primary "pv", .data (.arr [.scalar 5]))] =
      .ok
        ([(Key.primary "hrvsatellite_time_utc",
           .data (.arr [.scalar 0, .scalar 300, .scalar 600])),
          (Key.primary "pv", .data (.arr [.scalar 5]))].map (fun kv =>
          if strEndsWith kv.1.name "time_utc" then
            (kv.1,
             specExtendVal (ExtendTimestepsToFutureIterDataPipe.num_future_timesteps ⟨900, 300⟩)
               kv.2)
          else kv)) :=
  ⟨rfl,
   extend_timesteps_to_future_spec ⟨900, 300⟩
     [(Key.primary "hrvsatellite_time_utc",
       .data (.arr [.scalar 0, .scalar 300, .scalar 600])),
      (Key.primary "pv", .data (.arr [.scalar 5]))]
     rfl⟩

theorem getItem_lt {xs : List NDArray} {i : Nat} (h : i < xs.length) :
    (NDArray.arr xs).getItem i = .ok (xs.get ⟨i, h⟩) := by
  simp [NDArray.getItem, List.getElem?_eq_getElem h]

theorem getItem_ge {xs : List NDArray} {i : Nat} (h : xs.length ≤ i) :
    (NDArray.arr xs).getItem i = .error .indexError := by
  simp [NDArray.getItem, List.getElem?_eq_none h]

theorem nwp_sample_val_ok {k1 k2 : Key} {src : String} {xs ys : List NDArray}
    (hk1 : _key_is_constant k1 = false) (hk2 : _key_is_constant k2 = false)
    (hne : k1 ≠ k2) {i : Nat} (hx : i < xs.length) (hy : i < ys.length) :
    nwp_sample_val [(BatchKey.nwp, .nwpDict [(src, [(k1, .arr xs), (k2, .arr ys)])])] i =
      .ok (.nwpDict [(src, [(k1, xs.get ⟨i, hx⟩), (k2, ys.get ⟨i, hy⟩)])]) := by
  simp only [nwp_sample_val, dlookup_cons_self, List.map_cons, List.map_nil, mapEntries,
    getNwpVal, dlookup_cons_ne hne, extract_data_from_batch, hk1, hk2, getItem_lt hx,
    getItem_lt hy, Bool.false_eq_true, if_false]
  rfl

theorem nwp_sample_val_err {k1 k2 : Key} {src : String} {xs ys : List NDArray}
    (hk1 : _key_is_constant k1 = false) (hne : k1 ≠ k2) {i : Nat} (hx : i < xs.length)
    (hy : ys.length ≤ i) :
    nwp_sample_val [(BatchKey.nwp, .nwpDict [(src, [(k1, .arr xs), (k2, .arr ys)])])] i =
      .error .indexError := by
  simp only [nwp_sample_val, dlookup_cons_self, List.map_cons, List.map_nil, mapEntries,
    getNwpVal, dlookup_cons_ne hne, extract_data_from_batch, hk1, getItem_lt hx,
    getItem_ge hy, Bool.false_eq_true, if_false]
  rfl

theorem samples_loop_mismatch {k1 k2 : Key} {src : String} {xs ys : List NDArray}
    (hk1 : _key_is_constant k1 = false) (hk2 : _key_is_constant k2 = false)
    (hne : k1 ≠ k2) (hlen : ys.length < xs.length) :
    ∀ (m i : Nat), i + m = xs.length → i ≤ ys.length →
      samples_loop [(BatchKey.nwp, .nwpDict [(src, [(k1, .arr xs), (k2, .arr ys)])])]
        [BatchKey.nwp] i m = .error .indexError := by
  intro m
  induction m with
  | zero => intro i h hi; omega
  | succ m ih =>
    intro i h hi
    have hx : i < xs.length := by omega
    by_cases hiy : i < ys.length
    · have hb :
          build_sample [(BatchKey.nwp, .nwpDict [(src, [(k1, .arr xs), (k2, .arr ys)])])]
            [BatchKey.nwp] i =
          .ok [(BatchKey.nwp,
            .nwpDict [(src, [(k1, xs.get ⟨i, hx⟩), (k2, ys.get ⟨i, hiy⟩)])])] := by
        simp [build_sample, mapEntries, nwp_sample_val_ok hk1 hk2 hne hx hiy]
      rw [samples_loop, hb]
      rw [ih (i + 1) (by omega) (by omega)]
      rfl
    · have hy : ys.length ≤ i := by omega
      have hb :
          build_sample [(BatchKey.nwp, .nwpDict [(src, [(k1, .arr xs), (k2, .arr ys)])])]
            [BatchKey.nwp] i = .error .indexError := by
        simp [build_sample, mapEntries, nwp_sample_val_err hk1 hne hx hy]
      rw [samples_loop, hb]

theorem samples_loop_truncate {k1 k2 : Key} {src : String} {xs ys : List NDArray}
    (hk1 : _key_is_constant k1 = false) (hk2 : _key_is_constant k2 = false)
    (hne : k1 ≠ k2) (hle : xs.length ≤ ys.length) :
    ∀ (m i : Nat), i + m = xs.length →
      samples_loop [(BatchKey.nwp, .nwpDict [(src, [(k1, .arr xs), (k2, .arr ys)])])]
        [BatchKey.nwp] i m =
      .ok (List.zipWith
        (fun a b => [(BatchKey.nwp, BVal.nwpDict [(src, [(k1, a), (k2, b)])])])
        (xs.drop i) (ys.drop i)) := by
  intro m
  induction m with
  | zero =>
    intro i h
    have hi : i = xs.length := by omega
    subst hi
    rw [List.drop_length]
    rfl
  | succ m ih =>
    intro i h
    have hx : i < xs.length := by omega
    have hy : i < ys.length := by omega
    have hb :
        build_sample [(BatchKey.nwp, .nwpDict [(src, [(k1, .arr xs), (k2, .arr ys)])])]
          [BatchKey.nwp] i =
        .ok [(BatchKey.nwp,
          .nwpDict [(src, [(k1, xs.get ⟨i, hx⟩), (k2, ys.get ⟨i, hy⟩)])])] := by
      simp [build_sample, mapEntries, nwp_sample_val_ok hk1 hk2 hne hx hy]
    rw [samples_loop, hb, ih (i + 1) (by omega), List.drop_eq_getElem_cons hx,
      List.drop_eq_getElem_cons hy]
    rfl

/-- C8 amended: `unstack_np_batch_into_examples` performs no leading-axis
validation at all, and no `BatchSizeMismatchError` exists.  On a purely
nested batch with two variable nested fields, the batch size is inferred from
the first non-constant nested field; when a later field is shorter than that
inferred size, the split fails with the opaque builtin `IndexError` while
indexing it, and when the size-defining first field is the shorter one, the
split silently succeeds, truncating the longer field to one entry per
inferred index. -/
theorem unstack_nested_mismatch_no_validation (k1 k2 : Key) (src : String)
    (xs ys : List NDArray) (hk1 : _key_is_constant k1 = false)
    (hk2 : _key_is_constant k2 = false) (hne : k1 ≠ k2) :
    (ys.length < xs.length →
      unstack_np_batch_into_examples
          [(BatchKey.nwp, .nwpDict [(src, [(k1, .arr xs), (k2, .arr ys)])])] =
        .error .indexError) ∧
    (xs.length ≤ ys.length →
      unstack_np_batch_into_examples
          [(BatchKey.nwp, .nwpDict [(src, [(k1, .arr xs), (k2, .arr ys)])])] =
        .ok (List.zipWith
          (fun a b => [(BatchKey.nwp, BVal.nwpDict [(src, [(k1, a), (k2, b)])])])
          xs ys)) := by
  have hfind1 :
      List.find? (fun x => !_key_is_constant x) [BatchKey.nwp] = some BatchKey.nwp := rfl
  have hfind2 :
      List.find? (fun x => !_key_is_constant x) [k1, k2] = some k1 := by
    simp [List.find?, hk1]
  constructor
  · intro hlen
    simp only [unstack_np_batch_into_examples, List.map_cons, List.map_nil, hfind1, hfind2,
      dlookup_cons_self, if_pos rfl]
    exact samples_loop_mismatch hk1 hk2 hne hlen xs.length 0 (by omega) (by omega)
  · intro hle
    simp only [unstack_np_batch_into_examples, List.map_cons, List.map_nil, hfind1, hfind2,
      dlookup_cons_self, if_pos rfl]
    have := @samples_loop_truncate k1 k2 src xs ys hk1 hk2 hne hle xs.length 0 (by omega)
    simpa [List.drop_zero] using this

/-- Witness for C8 amended, at both branches: a one-source nested batch whose
`nwp` field has leading length 2 but whose `nwp_target_time_utc` field has
leading length 1 splits into an `IndexError`, while with the lengths the
other way round (size-defining field shorter) the split silently returns one
truncated example. -/
theorem unstack_nested_mismatch_no_validation_witness :
    unstack_np_batch_into_examples
        [(BatchKey.nwp,
          .nwpDict [("ukv", [(Key.nwpKey "nwp", .arr [.scalar 1, .scalar 2]),
            (Key.nwpKey "nwp_target_time_utc", .arr [.scalar 9])])])] =
      .error .indexError ∧
    unstack_np_batch_into_examples
        [(BatchKey.nwp,
          .nwpDict [("ukv", [(Key.nwpKey "nwp", .arr [.scalar 1]),
            (Key.nwpKey "nwp_target_time_utc", .arr [.scalar 9, .scalar 8])])])] =
      .ok [[(BatchKey.nwp,
        .nwpDict [("ukv", [(Key.nwpKey "nwp", .scalar 1),
          (Key.nwpKey "nwp_target_time_utc", .scalar 9)])])]] :=
  ⟨(unstack_nested_mismatch_no_validation (Key.nwpKey "nwp")
      (Key.nwpKey "nwp_target_time_utc") "ukv" [.scalar 1, .scalar 2] [.scalar 9] rfl rfl
      (by decide)).1 (by decide),
   (unstack_nested_mismatch_no_validation (Key.nwpKey "nwp")
      (Key.nwpKey "nwp_target_time_utc") "ukv" [.scalar 1] [.scalar 9, .scalar 8] rfl rfl
      (by decide)).2 (by decide)⟩

/-- C8 counterexample: on that same mismatched batch the raised exception is
the builtin `IndexError`, not a descriptive `BatchSizeMismatchError` — the
claimed pre-indexing validation does not exist. -/
theorem unstack_mismatched_no_batchSizeMismatchError :
    unstack_np_batch_into_examples
        [(BatchKey.nwp,
          .nwpDict [("ukv", [(Key.nwpKey "nwp", .arr [.scalar 1, .scalar 2]),
            (Key.nwpKey "nwp_target_time_utc", .arr [.scalar 9])])])] =
      .error .indexError ∧
    PyError.pyName .indexError ≠ "BatchSizeMismatchError" :=
  ⟨rfl, by decide⟩

theorem gatherKey_all_ok {k : Key} :
    ∀ {ds : List NumpyBatch}, (∀ d ∈ ds, ∃ w, dlookup d k = .ok w) →
      ∃ vs, gatherKey k ds = .ok vs := by
  intro ds
  induction ds with
  | nil => intro _; exact ⟨[], rfl⟩
  | cons d t ih =>
    intro h
    obtain ⟨w, hw⟩ := h d (List.mem_cons_self d t)
    obtain ⟨vs, hvs⟩ := ih (fun d' hd' => h d' (List.mem_cons_of_mem d hd'))
    exact ⟨w :: vs, by simp [gatherKey, hw, hvs, Except.map]⟩

/-- C10 amended: the two stacking implementations agree on every nonempty
example list whose (shared) key set consists of primary keys other than
`BatchKey.nwp` and other than `BatchKey.nwp_channel_names` — the latter must
be excluded because the utils version classifies it as constant while the
batch module's `_key_is_constant` compares it against the nested enum's
member and classifies it as variable. -/
theorem utils_stack_agrees_without_nwp_keys (first : NumpyBatch) (rest : List NumpyBatch)
    (hkeys : ∀ d ∈ rest, d.map Prod.fst = first.map Prod.fst)
    (hk : ∀ k ∈ first.map Prod.fst,
        k.isPrimary = true ∧ k ≠ BatchKey.nwp ∧ k ≠ BatchKey.nwp_channel_names) :
    utils_stack_np_examples_into_batch (first :: rest) =
      stack_np_examples_into_batch (first :: rest) := by
  simp only [utils_stack_np_examples_into_batch, stack_np_examples_into_batch]
  apply mapEntries_congr
  intro k hmem
  obtain ⟨hprim, hnwp, hncn⟩ := hk k hmem
  have hdncn : decide (k = BatchKey.nwp_channel_names) = false := by
    simp [hncn]
  have hconst : _key_is_constant k = strEndsWith k.name "t0_idx" := by
    have : decide (k = NWPBatchKey.nwp_channel_names) = false := by
      cases k with
      | primary nm => simp [NWPBatchKey.nwp_channel_names]
      | nwpKey nm => simp [Key.isPrimary] at hprim
    simp [_key_is_constant, this]
  rw [if_neg hnwp, hdncn, Bool.or_false]
  by_cases he : strEndsWith k.name "t0_idx" = true
  · rw [if_pos he]
    have hok : ∀ d ∈ first :: rest, ∃ w, dlookup d k = .ok w := by
      intro d hd
      rcases List.mem_cons.mp hd with rfl | hdr
      · exact dlookup_isOk_of_mem hmem
      · exact dlookup_isOk_of_mem ((hkeys d hdr) ▸ hmem)
    obtain ⟨w, hw⟩ := hok first (List.mem_cons_self first rest)
    obtain ⟨vs, hvs⟩ := gatherKey_all_ok (fun d hd => hok d (List.mem_cons_of_mem first hd))
    have hcons : gatherKey k (first :: rest) = .ok (w :: vs) := by
      simp [gatherKey, hw, hvs, Except.map]
    rw [hcons, hw]
    simp [stack_data_listP, hconst, he]
  · have he' : strEndsWith k.name "t0_idx" = false := by
      cases hcase : strEndsWith k.name "t0_idx" with
      | true => exact absurd hcase he
      | false => rfl
    rw [if_neg (by simp [he'])]
    cases hg : gatherKey k (first :: rest) with
    | error e => rfl
    | ok l => simp [stack_data_listP, hconst, he']

/-- Witness for C10 amended: two examples over the shared primary keys
`BatchKey.pv` (variable) and `BatchKey.pv_t0_idx` (constant) — neither the
nwp key nor the channel-names key — on which both implementations produce the
same batch. -/
theorem utils_stack_agrees_without_nwp_keys_witness :
    utils_stack_np_examples_into_batch
        [[(Key.primary "pv", .data (.arr [.scalar 1])),
          (Key.primary "pv_t0_idx", .data (.scalar 3))],
         [(Key.primary "pv", .data (.arr [.scalar 2])),
          (Key.primary "pv_t0_idx", .data (.scalar 3))]] =
      stack_np_examples_into_batch
        [[(Key.primary "pv", .data (.arr [.scalar 1])),
          (Key.primary "pv_t0_idx", .data (.scalar 3))],
         [(Key.primary "pv", .data (.arr [.scalar 2])),
          (Key.primary "pv_t0_idx", .data (.scalar 3))]] :=
  utils_stack_agrees_without_nwp_keys
    [(Key.primary "pv", .data (.arr [.scalar 1])),
     (Key.primary "pv_t0_idx", .data (.scalar 3))]
    [[(Key.primary "pv", .data (.arr [.scalar 2])),
      (Key.primary "pv_t0_idx", .data (.scalar 3))]]
    (by decide)
    (by decide)

end Ocf
